import Mathlib

/-!
# Verification of the browser AI agent command pipeline

A shallow embedding, in Lean 4, of the core logic of the browser automation
extension: the AI-client rate limiter (`aiClient.ts`), the safety filter
(`safetyFilter.ts`), the fast-path optimizer and executor (`fastPath.ts` /
`executor.ts`), the intent-clarification and code-generation model callers,
and (modelled from the spec, since the file is absent from the source tree)
the pipeline orchestrator.

Conventions of the embedding:
* JavaScript strings are embedded as `List Char` (written `JStr`), so that
  scanning functions can recurse structurally; concrete `String` literals are
  converted with `String.data`.
* JavaScript `undefined`/optional values are `Option`; the `x || d` idiom on
  strings (which also replaces the empty string) is `jsOr`.
* Code that performs I/O (remote model calls, `chrome.scripting` calls) is
  embedded as a pure function of an explicit oracle describing the
  environment's replies, and where a claim is about *which* external calls
  happen, the function also returns the list of emitted `BrowserEvent`s.
-/

namespace BrowserAgent

/-- JavaScript strings, embedded as lists of characters. -/
abbrev JStr := List Char

/-- The character set matched by JavaScript `\s` (and removed by
`String.prototype.trim`): ASCII whitespace plus the Unicode space
separators, line separators and BOM. -/
def isJsSpace (c : Char) : Bool :=
  c = ' ' || c = '\t' || c = '\n' || c = '\r' ||
  c = Char.ofNat 11 || c = Char.ofNat 12 ||
  c = Char.ofNat 0xa0 || c = Char.ofNat 0x1680 ||
  (Char.ofNat 0x2000 ≤ c && c ≤ Char.ofNat 0x200a) ||
  c = Char.ofNat 0x2028 || c = Char.ofNat 0x2029 ||
  c = Char.ofNat 0x202f || c = Char.ofNat 0x205f ||
  c = Char.ofNat 0x3000 || c = Char.ofNat 0xfeff

/-- The character set matched by JavaScript `\w`: `[A-Za-z0-9_]`. -/
def isWordChar (c : Char) : Bool :=
  ('a' ≤ c && c ≤ 'z') || ('A' ≤ c && c ≤ 'Z') || ('0' ≤ c && c ≤ '9') || c = '_'

/-- JavaScript `[0-9]` (`\d`). -/
def isDigitChar (c : Char) : Bool := '0' ≤ c && c ≤ '9'

/-- `String.prototype.trim`. -/
def jsTrim (s : JStr) : JStr :=
  ((s.dropWhile isJsSpace).reverse.dropWhile isJsSpace).reverse

/-- `String.prototype.toLowerCase` (ASCII range, which is all the source
compares). -/
def jsToLower (s : JStr) : JStr := s.map Char.toLower

/-- The JavaScript `x || d` idiom on an optional string: `undefined` and the
empty string (both falsy) are replaced by the default. -/
def jsOr (o : Option JStr) (d : JStr) : JStr :=
  match o with
  | none => d
  | some s => if s.isEmpty then d else s

/-- The JavaScript `x || null` idiom on an optional string. -/
def jsOrNull (o : Option JStr) : Option JStr :=
  match o with
  | none => none
  | some s => if s.isEmpty then none else some s

/-! ## Rate limiter (`src/background/aiClient.ts`, class `RateLimiter`)

The source keeps `requests: number[]` (millisecond timestamps) and the
configuration `maxRequests` / `windowMs` fixed at construction.  The global
instance is `new RateLimiter(10, 60000)`. -/

/-- Construction-time configuration of `RateLimiter`. -/
structure RateLimiterConfig where
  maxRequests : Nat
  windowMs : Int
  deriving Repr, DecidableEq

/-- Mutable state of `RateLimiter`: the recorded call timestamps. -/
structure RateLimiterState where
  requests : List Int
  deriving Repr, DecidableEq

/-- The global limiter configuration: `new RateLimiter(10, 60000)`. -/
def globalRateLimiterConfig : RateLimiterConfig := ⟨10, 60000⟩

/-- `RateLimiter.canProceed()`: evicts timestamps `t` with
`now - t >= windowMs`, rejects if the survivors are at capacity, otherwise
records `now` and admits.  `now` is `Date.now()` at the call, passed
explicitly here. -/
def canProceed (cfg : RateLimiterConfig) (now : Int) (st : RateLimiterState) :
    Bool × RateLimiterState :=
  let kept := st.requests.filter (fun t => now - t < cfg.windowMs)
  if cfg.maxRequests ≤ kept.length then
    (false, ⟨kept⟩)
  else
    (true, ⟨kept ++ [now]⟩)

/-- `Math.min(...xs)` on a nonempty list; the source only evaluates it when
`requests.length >= maxRequests >= 1`, so the empty case (JavaScript
`Infinity`) is unreachable and is given an arbitrary value here. -/
def jsMinList (l : List Int) : Int :=
  match l with
  | [] => 0
  | h :: t => t.foldl min h

/-- `RateLimiter.getWaitTime()`: `0` when under capacity (note: without
evicting first), otherwise the delay until the oldest recorded timestamp
leaves the window. -/
def getWaitTime (cfg : RateLimiterConfig) (now : Int) (st : RateLimiterState) : Int :=
  if st.requests.length < cfg.maxRequests then 0
  else jsMinList st.requests + cfg.windowMs - now

/-- Run a sequence of `canProceed()` calls at the given timestamps, returning
each call's timestamp paired with its verdict, plus the final state. -/
def limiterRun (cfg : RateLimiterConfig) (st : RateLimiterState) :
    List Int → List (Int × Bool) × RateLimiterState
  | [] => ([], st)
  | now :: rest =>
    let r := canProceed cfg now st
    let rr := limiterRun cfg r.2 rest
    ((now, r.1) :: rr.1, rr.2)

/-- The verdict trace of a call sequence started from a fresh limiter. -/
def runPairs (cfg : RateLimiterConfig) (calls : List Int) : List (Int × Bool) :=
  (limiterRun cfg ⟨[]⟩ calls).1

/-- The timestamps of the admitted calls in a trace that are still inside the
window ending at `now` — exactly what `canProceed`'s eviction leaves of them. -/
def admittedFresh (cfg : RateLimiterConfig) (pairs : List (Int × Bool)) (now : Int) :
    List Int :=
  ((pairs.filter (fun p => p.2)).map Prod.fst).filter (fun t => now - t < cfg.windowMs)

/-- How many calls of a trace were admitted with a timestamp inside the
half-open window `(x, x + windowMs]`. -/
def winCount (cfg : RateLimiterConfig) (x : Int) (pairs : List (Int × Bool)) : Nat :=
  pairs.countP (fun p => p.2 && decide (x < p.1) && decide (p.1 ≤ x + cfg.windowMs))

/-! ## Model gateway (`src/background/aiClient.ts`, `callAI`)

`callAI` validates the key and dispatches to `callClaude`/`callOpenAI`, each
of which performs one `fetch` to the remote provider.  The remote boundary is
an oracle: the provider's reply to the single request the function makes.
Note the source of `callAI` contains no reference to `rateLimiter`; the
events it emits record exactly the external calls the source performs. -/

inductive AIProvider
  | claude
  | openai
  deriving Repr, DecidableEq

/-- What the remote provider does with the one request a call sends. -/
inductive ProviderReply
  /-- Non-2xx HTTP response with this status and body text. -/
  | httpError (status : Nat) (body : JStr)
  /-- 2xx response whose JSON body is missing the expected content field. -/
  | missingContent
  /-- 2xx response with the given content text. -/
  | content (text : JStr)
  deriving Repr, DecidableEq

/-- External calls observable at the gateway boundary. -/
inductive GatewayEvent
  /-- A `fetch` to the given provider's API endpoint. -/
  | providerRequest (p : AIProvider)
  /-- A `rateLimiter.canProceed()` admission check (never emitted by the
  source's `callAI`). -/
  | limiterCheck
  deriving Repr, DecidableEq

structure AICallOptions where
  provider : AIProvider
  apiKey : JStr
  model : JStr
  systemPrompt : JStr
  userMessage : JStr
  maxTokens : Nat := 1000
  temperature : ℚ := 7/10

/-- `callClaude`: one fetch; non-ok → throw with status/body; missing
`content[0].text` → throw; otherwise the text. -/
def callClaude (reply : ProviderReply) : Except JStr JStr :=
  match reply with
  | .httpError status body =>
    .error (("Claude API error: " ++ toString status ++ " - ").data ++ body)
  | .missingContent => .error "Invalid response from Claude API".data
  | .content t => .ok t

/-- `callOpenAI`: same shape against the OpenAI endpoint. -/
def callOpenAI (reply : ProviderReply) : Except JStr JStr :=
  match reply with
  | .httpError status body =>
    .error (("OpenAI API error: " ++ toString status ++ " - ").data ++ body)
  | .missingContent => .error "Invalid response from OpenAI API".data
  | .content t => .ok t

/-- `callAI`: rejects an empty API key, then dispatches to the provider.
Returns the result together with the gateway events the call emitted. -/
def callAI (opts : AICallOptions) (reply : ProviderReply) :
    Except JStr JStr × List GatewayEvent :=
  if opts.apiKey.isEmpty then
    (.error "API key is required".data, [])
  else
    match opts.provider with
    | .claude => (callClaude reply, [.providerRequest .claude])
    | .openai => (callOpenAI reply, [.providerRequest .openai])

/-! ## Safety filter (`src/background/safetyFilter.ts`)

The blocked/flagged tables are lists of JavaScript regexes.  Every blocked
pattern is a sequence of case-insensitive literals, `\s*`, `\w+` and
single-character classes in which each `\s*`/`\w+` is immediately followed by
a character outside its own set (or ends the pattern), so greedy matching
without backtracking coincides with the JavaScript semantics; blocked
patterns are therefore embedded as token sequences with a deterministic
matcher.  The flagged patterns additionally use `\b` word boundaries and
top-level alternation, handled by a dedicated scanner below. -/

/-- One token of a (deterministic) safety pattern. -/
inductive STok
  /-- A case-insensitive literal character (all source patterns carry `/i`). -/
  | lit (c : Char)
  /-- `\s*`. -/
  | wsStar
  /-- `\w+`. -/
  | wordPlus
  /-- A single-character class containing exactly these characters. -/
  | oneOf (cs : List Char)

/-- Match a token sequence at the start of `s`, returning the consumed
fragment.  Greedy and deterministic (see the section comment for why this
equals the JavaScript backtracking semantics on the source's patterns). -/
def matchToks : List STok → JStr → Option JStr
  | [], _ => some []
  | .lit _ :: _, [] => none
  | .lit c :: ts, x :: xs =>
    if x.toLower = c.toLower then (matchToks ts xs).map (x :: ·) else none
  | .wsStar :: ts, s =>
    (matchToks ts (s.dropWhile isJsSpace)).map (s.takeWhile isJsSpace ++ ·)
  | .wordPlus :: ts, s =>
    if (s.takeWhile isWordChar).isEmpty then none
    else (matchToks ts (s.dropWhile isWordChar)).map (s.takeWhile isWordChar ++ ·)
  | .oneOf _ :: _, [] => none
  | .oneOf cs :: ts, x :: xs =>
    if cs.contains x then (matchToks ts xs).map (x :: ·) else none

/-- Leftmost match of a token sequence anywhere in `s` (the fragment
`code.match(pattern)[0]`); `isSome` is `pattern.test(code)`. -/
def firstTokMatch (ts : List STok) : JStr → Option JStr
  | [] => matchToks ts []
  | c :: xs =>
    match matchToks ts (c :: xs) with
    | some f => some f
    | none => firstTokMatch ts xs

/-- Literal-string pattern (case-insensitive). -/
def litToks (s : String) : List STok := s.data.map STok.lit

/-- The backtick character, one of the quote characters in the
`setTimeout`/`setInterval` patterns. -/
def backquoteChar : Char := Char.ofNat 96

/-- The class `['"\x60]` used by the string-argument timer patterns. -/
def quoteClass : STok := .oneOf ['\'', '"', backquoteChar]

/-- `BLOCKED_PATTERNS`: the ordered table of always-blocked patterns with
their reasons, transliterated rule by rule from the source. -/
def BLOCKED_PATTERNS : List (List STok × String) := [
  (litToks "fetch" ++ [.wsStar, .lit '('], "Network requests are not allowed"),
  (litToks "XMLHttpRequest", "Network requests are not allowed"),
  (.lit '.' :: litToks "ajax" ++ [.wsStar, .lit '('], "Network requests are not allowed"),
  (litToks "axios" ++ [.lit '.'], "Network requests are not allowed"),
  (litToks "navigator.sendBeacon", "Network requests are not allowed"),
  (litToks "WebSocket", "WebSocket connections are not allowed"),
  (litToks "document.cookie", "Cookie access is not allowed"),
  (litToks "localStorage", "localStorage access is not allowed"),
  (litToks "sessionStorage", "sessionStorage access is not allowed"),
  (litToks "indexedDB", "IndexedDB access is not allowed"),
  (litToks "caches" ++ [.lit '.'], "Cache API access is not allowed"),
  (litToks "eval" ++ [.wsStar, .lit '('], "eval() is not allowed"),
  (litToks "Function" ++ [.wsStar, .lit '('], "Function constructor is not allowed"),
  (litToks "setTimeout" ++ [.wsStar, .lit '(', .wsStar, quoteClass],
    "setTimeout with string argument is not allowed"),
  (litToks "setInterval" ++ [.wsStar, .lit '(', .wsStar, quoteClass],
    "setInterval with string argument is not allowed"),
  (litToks "<script", "Script injection is not allowed"),
  (litToks "javascript:", "javascript: URLs are not allowed"),
  (litToks "data:text/html", "data: HTML URLs are not allowed"),
  (litToks "chrome" ++ [.lit '.', .wordPlus],
    "Chrome extension APIs are not allowed in injected code"),
  (litToks "browser" ++ [.lit '.', .wordPlus],
    "Browser APIs are not allowed in injected code")]

/-- Whether an optional character counts as a word character for `\b`
(`none` — string edge — does not). -/
def wordOpt (o : Option Char) : Bool :=
  match o with
  | none => false
  | some c => isWordChar c

/-- A `\b` boundary holds between a previous character and the rest of the
input. -/
def atBoundary (prev : Option Char) (s : JStr) : Bool :=
  wordOpt prev != wordOpt s.head?

/-- Does some alternative of a `\b(w1|w2|…)\b` pattern match at this position
with a word boundary after it?  JavaScript backtracking tries the
alternatives left to right and accepts the first whose trailing `\b` also
holds, i.e. exactly when some alternative fits. -/
def altHitsAt (alts : List (List STok)) (prev : Option Char) (s : JStr) : Bool :=
  alts.any fun a =>
    match matchToks a s with
    | some consumed =>
      atBoundary (match consumed.getLast? with
        | some c => some c
        | none => prev) (s.drop consumed.length)
    | none => false

/-- `pattern.test(code)` for a `\b(w1|w2|…)\b` pattern: scan every position,
requiring a word boundary before and after the matched alternative. -/
def testAltWB (alts : List (List STok)) : Option Char → JStr → Bool
  | prev, [] => atBoundary prev [] && altHitsAt alts prev []
  | prev, c :: rest =>
    (atBoundary prev (c :: rest) && altHitsAt alts prev (c :: rest)) ||
      testAltWB alts (some c) rest

/-- `FLAGGED_PATTERNS`: the advisory table — a test predicate and a message
per rule, transliterated from the source. -/
def FLAGGED_PATTERNS : List ((JStr → Bool) × String) := [
  (testAltWB [litToks "pay", litToks "purchase", litToks "buy", litToks "checkout",
      litToks "order", litToks "subscribe", litToks "billing"] none,
    "This action involves a payment or purchase"),
  (testAltWB [litToks "delete", litToks "remove", litToks "cancel",
      litToks "unsubscribe",
      litToks "close" ++ [.wsStar] ++ litToks "account",
      litToks "deactivate"] none,
    "This action may delete or remove data"),
  (testAltWB [litToks "password",
      litToks "credit" ++ [.wsStar] ++ litToks "card",
      litToks "ssn",
      litToks "social" ++ [.wsStar] ++ litToks "security"] none,
    "This action involves sensitive data"),
  (fun s => (firstTokMatch (.lit '.' :: litToks "submit" ++
      [.wsStar, .lit '(', .wsStar, .lit ')']) s).isSome,
    "This action will submit a form")]

/-- The action kinds of `ActionPayload['type']`. -/
inductive ActionType
  | click
  | fill
  | scroll
  | navigate
  | extract
  | modify
  deriving Repr, DecidableEq

/-- `SafetyCheckResult` of `shared/types/pipeline.ts`. -/
structure SafetyCheckResult where
  safe : Bool
  blocked : Option String := none
  blockedReason : Option String := none
  requiresConfirmation : Option Bool := none
  confirmationMessage : Option String := none
  flaggedPatterns : Option (List String) := none
  deriving Repr, DecidableEq

/-- `code.match(pattern)?.[0] || 'unknown'`: the matched fragment, with the
falsy cases (no match — impossible right after a successful test — or an
empty fragment) replaced by `'unknown'`. -/
def fragOf (f : JStr) : String :=
  if f.isEmpty then "unknown" else String.mk f

/-- Scan the blocked table in order; at the first pattern whose test
succeeds, return the matched fragment and that rule's reason. -/
def scanBlocked : List (List STok × String) → JStr → Option (String × String)
  | [], _ => none
  | (toks, reason) :: rest, code =>
    match firstTokMatch toks code with
    | some f => some (fragOf f, reason)
    | none => scanBlocked rest code

/-- `checkSafety`, generalized over the two rule tables it iterates (the
source closes over the module-level constants; instantiating the tables
recovers it verbatim).  Blocked scan first — first match is terminal — then
the flagged rules accumulate. -/
def checkSafetyGen (blockedTbl : List (List STok × String))
    (flaggedTbl : List ((JStr → Bool) × String)) (code : JStr) : SafetyCheckResult :=
  match scanBlocked blockedTbl code with
  | some (frag, reason) =>
    { safe := false, blocked := some frag, blockedReason := some reason }
  | none =>
    let flagged := (flaggedTbl.filter (fun fp => fp.1 code)).map Prod.snd
    if flagged.isEmpty then { safe := true }
    else
      { safe := true
        requiresConfirmation := some true
        confirmationMessage := some ("This action has been flagged for review:\n- " ++
          String.intercalate "\n- " flagged ++ "\n\nDo you want to proceed?")
        flaggedPatterns := some flagged }

/-- `checkSafety(code, actionType)` — the action type is accepted but unused,
exactly as in the source. -/
def checkSafety (code : JStr) (_actionType : ActionType) : SafetyCheckResult :=
  checkSafetyGen BLOCKED_PATTERNS FLAGGED_PATTERNS code

/-! ## Fast-path optimizer (`src/background/fastPath.ts`)

The fast-path rules are anchored (`^…$`) JavaScript regexes with capture
groups, lazy and greedy repetition and alternation, so this section embeds a
small backtracking regex engine.  `matchRx` enumerates the parses of a
prefix of the input in exactly the JavaScript preference order (alternation
left first, greedy repetition longest first, lazy shortest first), so the
head of the list of full-input parses is the match JavaScript returns.
Repetition bodies that consume nothing are discarded, as JavaScript engines
do to bar empty-loop iterations; every repetition body in the rule table
consumes at least one character, so nothing is lost. -/

/-- Regex abstract syntax (the fragment the rule table uses). -/
inductive Rx
  | eps
  /-- Single character matching the predicate (character class / literal). -/
  | cls (p : Char → Bool)
  | seq (a b : Rx)
  | alt (a b : Rx)
  /-- `*` repetition; `lzy` selects lazy (`*?`) preference order. -/
  | star (lzy : Bool) (a : Rx)
  /-- Greedy `(…)?`. -/
  | opt (a : Rx)
  /-- Capturing group number `i`. -/
  | group (i : Nat) (a : Rx)

/-- Captured fragments by group number. -/
abbrev Caps := List (Nat × JStr)

/-- All parses of a `*` repetition, given the parses of one body iteration.
The fuel is the input length: every counted iteration consumes at least one
character, so the fuel never runs out before the true semantics does. -/
def starRun (f : JStr → List (JStr × Caps)) (lzy : Bool) : Nat → JStr → List (JStr × Caps)
  | 0, s => [(s, [])]
  | n + 1, s =>
    let iter := (f s).flatMap fun r =>
      if r.1.length < s.length then
        (starRun f lzy n r.1).map (fun r2 => (r2.1, r.2 ++ r2.2))
      else []
    if lzy then (s, []) :: iter else iter ++ [(s, [])]

/-- All parses of `rx` against a prefix of `s`, as (remaining input,
captures), in JavaScript backtracking preference order. -/
def matchRx : Rx → JStr → List (JStr × Caps)
  | .eps, s => [(s, [])]
  | .cls _, [] => []
  | .cls p, c :: cs => if p c then [(cs, [])] else []
  | .seq a b, s =>
    (matchRx a s).flatMap fun r => (matchRx b r.1).map fun r2 => (r2.1, r.2 ++ r2.2)
  | .alt a b, s => matchRx a s ++ matchRx b s
  | .star lzy a, s => starRun (matchRx a) lzy s.length s
  | .opt a, s => matchRx a s ++ [(s, [])]
  | .group i a, s =>
    (matchRx a s).map fun r => (r.1, r.2 ++ [(i, s.take (s.length - r.1.length))])

/-- `s.match(rx)` for an anchored regex: the preferred parse consuming the
whole input, if any, as its capture list. -/
def fullMatch (rx : Rx) (s : JStr) : Option Caps :=
  (((matchRx rx s).filter fun r => r.1.isEmpty).head?).map Prod.snd

/-- Case-insensitive literal character (all rules carry the `i` flag). -/
def ci (c : Char) : Rx := .cls fun x => x.toLower = c.toLower

/-- Sequence a list of regexes. -/
def seqs (l : List Rx) : Rx := l.foldr .seq .eps

/-- Case-insensitive literal string. -/
def litR (s : String) : Rx := seqs (s.data.map ci)

/-- Greedy `+`. -/
def plusOf (a : Rx) : Rx := .seq a (.star false a)

/-- `\s`. -/
def wsR : Rx := .cls isJsSpace

/-- `\s+`. -/
def wsPlusR : Rx := plusOf wsR

/-- `(\d+)`-style digit run. -/
def digitsPlus : Rx := plusOf (.cls isDigitChar)

/-- `[a-zA-Z0-9]`. -/
def alnumR : Rx := .cls fun c =>
  ('a' ≤ c && c ≤ 'z') || ('A' ≤ c && c ≤ 'Z') || ('0' ≤ c && c ≤ '9')

/-- `[-a-zA-Z0-9]`. -/
def alnumDashR : Rx := .cls fun c =>
  c = '-' || ('a' ≤ c && c ≤ 'z') || ('A' ≤ c && c ≤ 'Z') || ('0' ≤ c && c ≤ '9')

/-- `\S`. -/
def nonSpaceR : Rx := .cls fun c => !isJsSpace c

/-- JavaScript `.` (any character but a line terminator). -/
def dotAnyR : Rx := .cls fun c =>
  !(c = '\n' || c = '\r' || c = Char.ofNat 0x2028 || c = Char.ofNat 0x2029)

/-- `["']`. -/
def quoteR : Rx := .cls fun c => c = '"' || c = '\''

/-- `[^"']`. -/
def notQuoteR : Rx := .cls fun c => !(c = '"' || c = '\'')

/-- `FastPathAction` of `shared/types/pipeline.ts`. -/
inductive FastPathAction
  | scroll
  | navigate
  | reload
  | clickByText
  | goBack
  | goForward
  deriving Repr, DecidableEq

/-- Parameter records (`Record<string, string>`), as association lists. -/
abbrev Params := List (String × String)

/-- Record field access. -/
def pget (ps : Params) (k : String) : Option String :=
  (ps.find? fun p => p.1 = k).map Prod.snd

/-- The JavaScript `x || d` idiom on an optional `String`. -/
def jsOrS (o : Option String) (d : String) : String :=
  match o with
  | none => d
  | some s => if s = "" then d else s

/-- Capture-group access, `match[i]` (`none` = group not set). -/
def capGet (caps : Caps) (i : Nat) : Option String :=
  ((caps.find? fun c => c.1 = i).map Prod.snd).map String.mk

/-- `FastPathRule` of `shared/types/pipeline.ts`. -/
structure FastPathRule where
  pattern : Rx
  action : FastPathAction
  extractParams : Option (Caps → Params) := none

/-- `FAST_PATH_RULES`, transliterated rule by rule, in order.  Group numbers
follow the JavaScript numbering of capturing groups. -/
def FAST_PATH_RULES : List FastPathRule := [
  -- /^scroll\s+(down|up)(?:\s+(\d+))?$/i
  { pattern := seqs [litR "scroll", wsPlusR,
      .group 1 (.alt (litR "down") (litR "up")),
      .opt (.seq wsPlusR (.group 2 digitsPlus))]
    action := .scroll
    extractParams := some fun caps =>
      [("direction", jsOrS ((capGet caps 1).map fun s => String.mk (jsToLower s.data)) ""),
       ("amount", jsOrS (capGet caps 2) "400")] }
  ,
  -- /^scroll\s+to\s+(top|bottom)$/i
  { pattern := seqs [litR "scroll", wsPlusR, litR "to", wsPlusR,
      .group 1 (.alt (litR "top") (litR "bottom"))]
    action := .scroll
    extractParams := some fun caps =>
      [("direction", jsOrS ((capGet caps 1).map fun s => String.mk (jsToLower s.data)) "")] }
  ,
  -- /^page\s+(down|up)$/i
  { pattern := seqs [litR "page", wsPlusR, .group 1 (.alt (litR "down") (litR "up"))]
    action := .scroll
    extractParams := some fun caps =>
      [("direction", jsOrS ((capGet caps 1).map fun s => String.mk (jsToLower s.data)) ""),
       ("amount", "800")] }
  ,
  -- /^go\s+back$/i
  { pattern := seqs [litR "go", wsPlusR, litR "back"], action := .goBack }
  ,
  -- /^go\s+forward$/i
  { pattern := seqs [litR "go", wsPlusR, litR "forward"], action := .goForward }
  ,
  -- /^(refresh|reload)(\s+page)?$/i
  { pattern := seqs [.group 1 (.alt (litR "refresh") (litR "reload")),
      .opt (.group 2 (.seq wsPlusR (litR "page")))]
    action := .reload }
  ,
  -- /^(?:.*?\s+)?(?:navigate|go|open)(?:\s+to)?(?:the\s+)?(?:website\s+)?
  --   ([a-zA-Z0-9][-a-zA-Z0-9]*(?:\.[a-zA-Z0-9][-a-zA-Z0-9]*)+(?:\/\S*)?)$/i
  { pattern := seqs [.opt (.seq (.star true dotAnyR) wsPlusR),
      .alt (litR "navigate") (.alt (litR "go") (litR "open")),
      .opt (.seq wsPlusR (litR "to")),
      .opt (.seq (litR "the") wsPlusR),
      .opt (.seq (litR "website") wsPlusR),
      .group 1 (seqs [alnumR, .star false alnumDashR,
        plusOf (seqs [ci '.', alnumR, .star false alnumDashR]),
        .opt (.seq (ci '/') (.star false nonSpaceR))])]
    action := .navigate
    extractParams := some fun caps => [("url", jsOrS (capGet caps 1) "")] }
  ,
  -- /^(?:.*?\s+)?(?:navigate|go|open)(?:\s+to)?(https?:\/\/\S+)$/i
  { pattern := seqs [.opt (.seq (.star true dotAnyR) wsPlusR),
      .alt (litR "navigate") (.alt (litR "go") (litR "open")),
      .opt (.seq wsPlusR (litR "to")),
      .group 1 (seqs [litR "http", .opt (ci 's'), litR "://", plusOf nonSpaceR])]
    action := .navigate
    extractParams := some fun caps => [("url", jsOrS (capGet caps 1) "")] }
  ,
  -- /^click\s+["']([^"']+)["']$/i
  { pattern := seqs [litR "click", wsPlusR, quoteR, .group 1 (plusOf notQuoteR), quoteR]
    action := .clickByText
    extractParams := some fun caps => [("text", jsOrS (capGet caps 1) "")] }
  ,
  -- /^click\s+on\s+["']([^"']+)["']$/i
  { pattern := seqs [litR "click", wsPlusR, litR "on", wsPlusR, quoteR,
      .group 1 (plusOf notQuoteR), quoteR]
    action := .clickByText
    extractParams := some fun caps => [("text", jsOrS (capGet caps 1) "")] }
  ]

/-- `FastPathResult` of `shared/types/pipeline.ts`. -/
structure FastPathResult where
  matched : Bool
  action : Option FastPathAction := none
  params : Option Params := none
  deriving Repr, DecidableEq

/-- The rule scan of `checkFastPath`: first matching rule wins; its
`extractParams` (or the empty record) becomes the params. -/
def scanRules (t : JStr) : List FastPathRule → FastPathResult
  | [] => { matched := false }
  | r :: rest =>
    match fullMatch r.pattern t with
    | some caps =>
      { matched := true, action := some r.action
        params := some (match r.extractParams with
          | some f => f caps
          | none => []) }
    | none => scanRules t rest

/-- `checkFastPath(command)`: trim, then try the rules in order. -/
def checkFastPath (command : String) : FastPathResult :=
  scanRules (jsTrim command.data) FAST_PATH_RULES

/-! ## Executor surface and fast-path execution

External calls the executors make (`chrome.scripting.executeScript`,
`chrome.tabs.*`, and — for the gateway — a model call) are recorded as
`BrowserEvent`s; the page's reaction is supplied by an explicit page value
(the in-page callMap functions of the source are pure given the page, and are
embedded directly). -/

/-- External calls observable at the executor boundary. -/
inductive BrowserEvent
  /-- A `chrome.scripting.executeScript` injection. -/
  | runScript
  /-- `chrome.tabs.update(tabId, {url})`. -/
  | tabsUpdate (url : String)
  /-- `chrome.tabs.reload(tabId)`. -/
  | tabsReload
  /-- An invocation of the Model Gateway (`callAI`). -/
  | modelCall
  deriving Repr, DecidableEq

/-- `ExecutionResult` of `shared/types/pipeline.ts`. -/
structure ExecutionResult where
  success : Bool
  message : Option String := none
  error : Option String := none
  actualResult : Option String := none
  deriving Repr, DecidableEq

/-- The page mutation a scroll script performs (`none` amount encodes the
`NaN` JavaScript produces from an unparseable magnitude). -/
inductive ScrollEff
  | byAmount (amt : Option Int)
  | toTop
  | toBottom
  deriving Repr, DecidableEq

/-- JavaScript `parseInt(s, 10)`: optional sign and leading decimal digits
after whitespace; `none` is `NaN`. -/
def parseIntJs (s : String) : Option Int :=
  let t := s.data.dropWhile isJsSpace
  let signed : Int × JStr :=
    match t with
    | '-' :: r => (-1, r)
    | '+' :: r => (1, r)
    | _ => (1, t)
  let ds := signed.2.takeWhile isDigitChar
  if ds.isEmpty then none
  else some (signed.1 * ds.foldl (fun n c => n * 10 + ((c.toNat : Int) - 48)) 0)

/-- The scroll effect of the fast-path scroll script: an exact-string switch
on the direction (no default case — an unrecognized direction scrolls
nothing). -/
def fastScrollEffect (dir : Option String) (amt : Option Int) : Option ScrollEff :=
  match dir with
  | none => none
  | some d =>
    if d = "down" then some (.byAmount amt)
    else if d = "up" then some (.byAmount (amt.map (- ·)))
    else if d = "top" then some .toTop
    else if d = "bottom" then some .toBottom
    else none

/-- Fast-path `executeScroll`: parses the magnitude (default `'400'`),
injects the scroll script and reports success unconditionally. -/
def fastExecuteScroll (params : Params) :
    ExecutionResult × Option ScrollEff × List BrowserEvent :=
  let direction := pget params "direction"
  let amount := pget params "amount"
  let scrollAmount := parseIntJs (jsOrS amount "400")
  ({ success := true, message := some ("Scrolled " ++ (direction.getD "undefined")) },
   fastScrollEffect direction scrollAmount, [.runScript])

/-- Fast-path `executeGoBack`. -/
def fastExecuteGoBack : ExecutionResult × List BrowserEvent :=
  ({ success := true, message := some "Navigated back" }, [.runScript])

/-- Fast-path `executeGoForward`. -/
def fastExecuteGoForward : ExecutionResult × List BrowserEvent :=
  ({ success := true, message := some "Navigated forward" }, [.runScript])

/-- Fast-path `executeReload`. -/
def fastExecuteReload : ExecutionResult × List BrowserEvent :=
  ({ success := true, message := some "Page reloaded" }, [.tabsReload])

/-- Fast-path `executeNavigate`: prefixes `https://` when no scheme is
present and updates the tab. -/
def fastExecuteNavigate (params : Params) : ExecutionResult × List BrowserEvent :=
  let url := (pget params "url").getD ""
  let url2 := if "http://".data.isPrefixOf url.data || "https://".data.isPrefixOf url.data
    then url else "https://" ++ url
  ({ success := true, message := some ("Navigating to " ++ url2) }, [.tabsUpdate url2])

/-- One clickable element as the fast-path click script sees it
(`textContent`, `aria-label`, `value`; `none` = absent/undefined). -/
structure FPElem where
  textContent : Option String := none
  ariaLabel : Option String := none
  value : Option String := none
  deriving Repr, DecidableEq

/-- The clickable elements of the page, in document order (the result of the
script's `querySelectorAll` over buttons, links, role=button and
submit/button inputs). -/
structure FastPage where
  clickables : List FPElem
  deriving Repr, DecidableEq

/-- The script's match test: trimmed text content, aria-label or value,
case-insensitively equal to the searched text. -/
def clickMatches (searchText : String) (e : FPElem) : Bool :=
  let elText := jsOrS (e.textContent.map fun t => String.mk (jsTrim t.data)) ""
  let aria := jsOrS e.ariaLabel ""
  let v := jsOrS e.value ""
  jsToLower elText.data = jsToLower searchText.data ||
    jsToLower aria.data = jsToLower searchText.data ||
    jsToLower v.data = jsToLower searchText.data

/-- Fast-path `executeClickByText`: the injected script scans the clickable
elements and reports whether one matched; the wrapper turns that into the
`ExecutionResult`, with a fallback error message for the (here unreachable)
case of a script result carrying no error text. -/
def executeClickByText (params : Params) (page : FastPage) :
    ExecutionResult × List BrowserEvent :=
  let text := (pget params "text").getD ""
  let found := page.clickables.any (clickMatches text)
  let scriptError : Option String :=
    if found then none else some ("No element found with text \"" ++ text ++ "\"")
  if found then
    ({ success := true, message := some ("Clicked \"" ++ text ++ "\"") }, [.runScript])
  else
    ({ success := false,
       error := some (jsOrS scriptError
         ("Could not find element with text \"" ++ text ++ "\"")) }, [.runScript])

/-- `executeFastPathAction`: dispatch on the action kind.  (The source's
`default` branch is unreachable here because `FastPathAction` is a closed
union.) -/
def executeFastPathAction (action : FastPathAction) (params : Params) (page : FastPage) :
    ExecutionResult × List BrowserEvent :=
  match action with
  | .scroll =>
    let r := fastExecuteScroll params
    (r.1, r.2.2)
  | .goBack => fastExecuteGoBack
  | .goForward => fastExecuteGoForward
  | .reload => fastExecuteReload
  | .navigate => fastExecuteNavigate params
  | .clickByText => executeClickByText params page

/-! ## Main executor primitives (`src/background/executor.ts`) -/

/-- The main executor's scroll script: switches on the lowercased direction
(fixed magnitude 400, no default case). -/
def executorScrollEffect (direction : String) : Option ScrollEff :=
  let d := String.mk (jsToLower direction.data)
  if d = "down" then some (.byAmount (some 400))
  else if d = "up" then some (.byAmount (some (-400)))
  else if d = "top" then some .toTop
  else if d = "bottom" then some .toBottom
  else none

/-- `executeScroll(direction, tabId)` of the main executor: injects the
script and reports success unconditionally, whatever the direction. -/
def executorScroll (direction : String) :
    ExecutionResult × Option ScrollEff × List BrowserEvent :=
  ({ success := true, message := some ("Scrolled " ++ direction) },
   executorScrollEffect direction, [.runScript])

/-- What the extract script sees of the page: the `innerText` of
`querySelector(sel) || document.body` (`none` = `undefined`). -/
structure ExecPage where
  extractText : String → Option String

/-- `executeExtract(selector, tabId)`: reads up to 1000 characters of the
resolved element's text and reports success unconditionally. -/
def executeExtract (selector : String) (page : ExecPage) :
    ExecutionResult × List BrowserEvent :=
  let text := (page.extractText selector).map fun t => String.mk (t.data.take 1000)
  ({ success := true, message := some (jsOrS text "No content extracted") }, [.runScript])

/-! ## Settings (`shared/types/pipeline.ts`) -/

inductive Theme
  | light
  | dark
  | system
  deriving Repr, DecidableEq

/-- `ExtensionSettings`. -/
structure ExtensionSettings where
  provider : AIProvider
  apiKey : String
  intentModel : String
  codeGenModel : String
  maxRetries : Nat
  confirmDestructive : Bool
  audioFeedback : Bool
  theme : Theme
  deriving Repr, DecidableEq

/-- `DEFAULT_SETTINGS`. -/
def DEFAULT_SETTINGS : ExtensionSettings :=
  { provider := .claude
    apiKey := ""
    intentModel := "claude-3-5-haiku-20241022"
    codeGenModel := "claude-sonnet-4-20250514"
    maxRetries := 3
    confirmDestructive := true
    audioFeedback := false
    theme := .system }

/-! ## Structured-block extraction shared by both model callers

Both `analyzeIntent` and `generateCode` run `response.match(/\x7b[\s\S]*\x7d/)`:
the leftmost match starts at the first opening brace and, `[\s\S]*` being
greedy, extends to the last closing brace of the whole string; a match exists
iff some closing brace occurs strictly after the first opening brace. -/

/-- The opening brace character. -/
def lbrace : Char := Char.ofNat 123

/-- The closing brace character. -/
def rbrace : Char := Char.ofNat 125

/-- `response.match(/\x7b[\s\S]*\x7d/)?.[0]`. -/
def extractJsonBlock (s : JStr) : Option JStr :=
  match s.findIdx? (· = lbrace), s.reverse.findIdx? (· = rbrace) with
  | some i, some jr =>
    let j := s.length - 1 - jr
    if i < j then some ((s.drop i).take (j - i + 1)) else none
  | _, _ => none

/-! ## Intent resolver (`src/background/llm/intentLLM.ts`, `analyzeIntent`)

The single `callAI` is threaded through the gateway embedding; the reply is
the provider oracle.  `JSON.parse` (a platform builtin) is an oracle
`parse`: `.error m` is a throw with message `m`, which lands in the
function's outer catch.  The prompt strings — pure formatting of the
snapshot and command which `callAI` transports verbatim — are not modelled;
no behavior below depends on them.  The returned event list records the
model calls made: by construction of the source there is exactly one. -/

/-- `IntentAnalysis.parsedIntent` of `shared/types/pipeline.ts`. -/
structure ParsedIntent where
  action : String
  target : Option String := none
  value : Option String := none
  deriving Repr, DecidableEq

/-- `IntentAnalysis`. -/
structure IntentAnalysis where
  clear : Bool
  clarificationQuestion : Option String := none
  clarificationOptions : Option (List String) := none
  parsedIntent : Option ParsedIntent := none
  deriving Repr, DecidableEq

/-- The fields `analyzeIntent` reads off the parsed JSON object. -/
structure IntentJson where
  clear : Bool
  clarificationQuestion : Option String := none
  clarificationOptions : Option (List String) := none
  parsedIntent : Option ParsedIntent := none

/-- The decision `analyzeIntent` falls back to whenever the model call or
the parse fails: proceed, treating the whole command as a click target. -/
def intentFallback (command : String) : IntentAnalysis :=
  { clear := true
    parsedIntent := some { action := "click", target := some command } }

/-- `analyzeIntent(command, domContext, settings)` with the model reply and
`JSON.parse` supplied as oracles. -/
def analyzeIntent (command : String) (settings : ExtensionSettings)
    (reply : ProviderReply) (parse : JStr → Except String IntentJson) :
    IntentAnalysis × List BrowserEvent :=
  let r := callAI
    { provider := settings.provider, apiKey := settings.apiKey.data
      model := settings.intentModel.data, systemPrompt := [], userMessage := []
      maxTokens := 500 } reply
  match r.1 with
  | .error _ => (intentFallback command, [.modelCall])
  | .ok resp =>
    match extractJsonBlock resp with
    | none => (intentFallback command, [.modelCall])
    | some block =>
      match parse block with
      | .error _ => (intentFallback command, [.modelCall])
      | .ok p =>
        ({ clear := p.clear
           clarificationQuestion := p.clarificationQuestion
           clarificationOptions := p.clarificationOptions
           parsedIntent := p.parsedIntent }, [.modelCall])

/-! ## Action generator (`src/background/llm/codeGenLLM.ts`, `generateCode`) -/

/-- Verification kinds of `GeneratedAction.verification.type`. -/
inductive VerifKind
  | domChange
  | navigation
  | styleChange
  | noVerify
  deriving Repr, DecidableEq

/-- `GeneratedAction.verification`. -/
structure VerificationSpec where
  vkind : VerifKind
  expectedResult : String
  deriving Repr, DecidableEq

/-- One element of the parsed `actions` array, before validation: every
field the source reads may be absent. -/
structure RawAction where
  actionType : Option String := none
  code : Option String := none
  selector : Option String := none
  description : Option String := none
  verification : Option VerificationSpec := none
  deriving Repr, DecidableEq

/-- `GeneratedAction` as `generateCode` builds it (`code` keeps the raw
field, which the JSON may omit). -/
structure GeneratedAction where
  code : Option String
  selector : Option String
  actionType : String
  description : String
  verification : VerificationSpec
  deriving Repr, DecidableEq

/-- `CodeGenResult`. -/
structure CodeGenResult where
  success : Bool
  actions : List GeneratedAction
  explanation : String
  error : Option String := none
  deriving Repr, DecidableEq

/-- The fields `generateCode` reads off the parsed JSON object. -/
structure CodeGenJson where
  success : Bool
  actions : Option (List RawAction) := none
  explanation : Option String := none
  error : Option String := none

/-- The `!action.actionType` validity test (absent and empty are falsy). -/
def hasKind (a : RawAction) : Bool :=
  match a.actionType with
  | none => false
  | some s => !(s = "")

/-- The JavaScript `x || null` idiom on an optional `String`. -/
def jsOrNullS (o : Option String) : Option String :=
  match o with
  | none => none
  | some s => if s = "" then none else some s

/-- How a surviving raw action is rebuilt into a `GeneratedAction`. -/
def normalizeAction (a : RawAction) : GeneratedAction :=
  { code := a.code
    selector := jsOrNullS a.selector
    actionType := a.actionType.getD ""
    description := jsOrS a.description "Action"
    verification := a.verification.getD { vkind := .noVerify, expectedResult := "" } }

/-- `generateCode(command, parsedIntent, domContext, settings,
conversationHistory)` with the model reply and `JSON.parse` as oracles (the
prompt strings are not modelled, as for `analyzeIntent`). -/
def generateCode (settings : ExtensionSettings) (reply : ProviderReply)
    (parse : JStr → Except String CodeGenJson) :
    CodeGenResult × List BrowserEvent :=
  let r := callAI
    { provider := settings.provider, apiKey := settings.apiKey.data
      model := settings.codeGenModel.data, systemPrompt := [], userMessage := []
      maxTokens := 2000 } reply
  match r.1 with
  | .error e =>
    ({ success := false, actions := [], explanation := "Code generation failed"
       error := some (String.mk e) }, [.modelCall])
  | .ok resp =>
    match extractJsonBlock resp with
    | none =>
      ({ success := false, actions := []
         explanation := "Failed to parse code generation response"
         error := some "Invalid response format" }, [.modelCall])
    | some block =>
      match parse block with
      | .error m =>
        ({ success := false, actions := [], explanation := "Code generation failed"
           error := some m }, [.modelCall])
      | .ok p =>
        if !p.success then
          ({ success := false, actions := []
             explanation := jsOrS p.explanation "Code generation failed"
             error := some (jsOrS p.error "Unknown error") }, [.modelCall])
        else
          let valid := ((p.actions.getD []).filter hasKind).map normalizeAction
          ({ success := !valid.isEmpty, actions := valid
             explanation := jsOrS p.explanation "Generated actions" }, [.modelCall])

/-! ## Pipeline orchestrator

The orchestrator module (`src/background/pipeline.ts`, imported by the
service worker as `processPipeline`) is not present in the source tree; only
its caller, its state types and its collaborators are.  The definitions in
this section are therefore modelled from the spec's state machine (spec
section 4.8), instantiated with the source-derived collaborators
(`checkFastPath`, `executeFastPathAction`, `checkSafety`) where those exist.
Alongside the terminal state, the model reports how many model calls were
made and how many codegen–safety–execution cycles ran. -/

/-- Modelled from the spec: the executor outcome as the orchestrator's retry
rule sees it — a success flag and the `requiresRetry` hint ("optional
'should retry' hint" of the spec's ExecutionOutcome). -/
structure ModelledExecOutcome where
  success : Bool
  requiresRetry : Bool
  deriving Repr, DecidableEq

/-- Modelled from the spec: the collaborators' behavior during one pipeline
run — the intent decision the model call produces, and per-cycle outcomes of
codegen, execution and verification. -/
structure PipelineEnv where
  intentResult : IntentAnalysis
  codegenResult : Nat → CodeGenResult
  execOutcome : Nat → ModelledExecOutcome
  verifyOk : Nat → Bool
  fastPage : FastPage

/-- Modelled from the spec: the terminal states of the orchestrator
(`complete`/`error`), plus the two suspension points (clarification,
flagged-action confirmation). -/
inductive PipelineEnd
  | complete
  | error
  | clarificationNeeded
  | confirmationNeeded
  deriving Repr, DecidableEq

/-- The safety stage over a batch of generated actions: every payload must
pass the blocked scan.  (`checkSafety` ignores its action-type argument, so
a fixed one is passed.) -/
def actionsSafe (acts : List GeneratedAction) : Bool :=
  acts.all fun a => (checkSafety (a.code.getD "").data .click).safe

/-- Whether any generated action was flagged for confirmation. -/
def actionsFlagged (acts : List GeneratedAction) : Bool :=
  acts.any fun a =>
    ((checkSafety (a.code.getD "").data .click).requiresConfirmation).getD false

/-- Modelled from the spec: the bounded regenerate-and-execute loop (spec
4.8 items 6–12).  Each fuel step is one cycle — codegen, then safety, then
execution, then verification; a retryable failure (execution failure with
`requiresRetry`, or verification failure) re-enters the loop; exhausting
`maxRetries` ends in `error`.  Returns (terminal state, model calls made,
cycles run). -/
def runRetryCycles (env : PipelineEnv) : Nat → Nat → PipelineEnd × Nat × Nat
  | 0, _ => (.error, 0, 0)
  | fuel + 1, n =>
    let cg := env.codegenResult n
    if cg.actions.isEmpty then (.error, 1, 0)
    else if !actionsSafe cg.actions then (.error, 1, 0)
    else if actionsFlagged cg.actions then (.confirmationNeeded, 1, 0)
    else
      let ex := env.execOutcome n
      if ex.success && env.verifyOk n then (.complete, 1, 1)
      else if !ex.success && !ex.requiresRetry then (.error, 1, 1)
      else
        let r := runRetryCycles env fuel (n + 1)
        (r.1, r.2.1 + 1, r.2.2 + 1)

/-- Modelled from the spec: `processPipeline` (spec 4.8).  Fast path first —
a match executes directly and finishes, skipping intent, codegen and safety;
otherwise one intent model call, suspension on an unclear intent, and the
bounded retry loop.  Returns (terminal state, model calls made, cycles
run). -/
def processPipelineModel (command : String) (settings : ExtensionSettings)
    (env : PipelineEnv) : PipelineEnd × Nat × Nat :=
  let fp := checkFastPath command
  if fp.matched then
    match fp.action, fp.params with
    | some a, some ps =>
      let r := executeFastPathAction a ps env.fastPage
      (if r.1.success then .complete else .error, 0, 0)
    | _, _ => (.error, 0, 0)
  else
    if !env.intentResult.clear then (.clarificationNeeded, 1, 0)
    else
      let r := runRetryCycles env settings.maxRetries 0
      (r.1, r.2.1 + 1, r.2.2)

/-! ## Theorems -/

/-- **C10.** For every input and surface, the Executor's scroll primitive
(including with an unrecognized direction string, on which no scrolling is
performed) and its extract primitive, as well as the fast-path scroll
execution, always return an execution outcome with `success = true`: these
action kinds never report failure at the public interface. -/
theorem claim_C10_scroll_extract_always_succeed
    (direction sel : String) (page : ExecPage) (params : Params) :
    (executorScroll direction).1.success = true
    ∧ ((executorScroll direction).2.1 = none ↔
        String.mk (jsToLower direction.data) ∉ (["down", "up", "top", "bottom"] : List String))
    ∧ (executeExtract sel page).1.success = true
    ∧ (fastExecuteScroll params).1.success = true := by
  refine ⟨rfl, ?_, rfl, rfl⟩
  simp only [executorScroll, executorScrollEffect]
  split_ifs with h1 h2 h3 h4 <;> simp_all

/-- **C6.** Whenever the intent model call fails (HTTP error, malformed
provider payload, or a configuration failure inside `callAI`) or its
response contains no parseable structured block (no brace-delimited block,
or `JSON.parse` throwing on it), `analyzeIntent` does not throw and returns
the fallback decision: `clear = true` with
`parsedIntent = {action: "click", target: command}`. -/
theorem claim_C6_intent_fallback (command : String) (settings : ExtensionSettings)
    (parse : JStr → Except String IntentJson) :
    (∀ status body, analyzeIntent command settings (.httpError status body) parse =
        (intentFallback command, [.modelCall]))
    ∧ (analyzeIntent command settings .missingContent parse =
        (intentFallback command, [.modelCall]))
    ∧ (∀ resp, extractJsonBlock resp = none →
        analyzeIntent command settings (.content resp) parse =
          (intentFallback command, [.modelCall]))
    ∧ (∀ resp b m, extractJsonBlock resp = some b → parse b = .error m →
        analyzeIntent command settings (.content resp) parse =
          (intentFallback command, [.modelCall]))
    ∧ (intentFallback command).clear = true
    ∧ (intentFallback command).parsedIntent =
        some { action := "click", target := some command } := by
  refine ⟨?_, ?_, ?_, ?_, rfl, rfl⟩
  · intro status body
    by_cases hk : settings.apiKey.data.isEmpty <;> cases hp : settings.provider <;>
      simp [analyzeIntent, callAI, callClaude, callOpenAI, hk, hp]
  · by_cases hk : settings.apiKey.data.isEmpty <;> cases hp : settings.provider <;>
      simp [analyzeIntent, callAI, callClaude, callOpenAI, hk, hp]
  · intro resp hre
    by_cases hk : settings.apiKey.data.isEmpty <;> cases hp : settings.provider <;>
      simp [analyzeIntent, callAI, callClaude, callOpenAI, hk, hp, hre]
  · intro resp b m hre hpb
    by_cases hk : settings.apiKey.data.isEmpty <;> cases hp : settings.provider <;>
      simp [analyzeIntent, callAI, callClaude, callOpenAI, hk, hp, hre, hpb]

/-- **C6 witness.** The fallback at a concrete unparseable response. -/
theorem claim_C6_witness :
    analyzeIntent "press it" DEFAULT_SETTINGS (.content "no structured block".data)
        (fun _ => .error "unused") =
      (intentFallback "press it", [.modelCall]) :=
  (claim_C6_intent_fallback "press it" DEFAULT_SETTINGS (fun _ => .error "unused")).2.2.1
    "no structured block".data (by decide)

/-- **C9 counterexample.** The claim asserts that a malformed model response
(no extractable structured block) triggers exactly one internal re-prompt —
a second model call for the same stage — before the failure is surfaced.  At
a concrete malformed response, both model callers perform exactly one model
call in total: no second call is ever made.  The intent stage moreover
surfaces no failure at all (it falls back to a clear decision). -/
theorem claim_C9_counterexample :
    (analyzeIntent "cmd" { DEFAULT_SETTINGS with apiKey := "k" }
        (.content "plain text, not structured".data)
        (fun _ => (.error "unused" : Except String IntentJson))).2.length = 1
    ∧ (analyzeIntent "cmd" { DEFAULT_SETTINGS with apiKey := "k" }
        (.content "plain text, not structured".data)
        (fun _ => (.error "unused" : Except String IntentJson))).2.length ≠ 2
    ∧ (generateCode { DEFAULT_SETTINGS with apiKey := "k" }
        (.content "plain text, not structured".data)
        (fun _ => (.error "unused" : Except String CodeGenJson))).2.length = 1
    ∧ (analyzeIntent "cmd" { DEFAULT_SETTINGS with apiKey := "k" }
        (.content "plain text, not structured".data)
        (fun _ => (.error "unused" : Except String IntentJson))).1 =
      intentFallback "cmd" := by
  refine ⟨rfl, by decide, rfl, rfl⟩

/-- **C9 amended.** On a model response from which no structured block can be
extracted, the pipeline makes no re-prompt attempt: `analyzeIntent` performs
its single model call and falls back to the default clear decision, and
`generateCode` performs its single model call and surfaces `success = false`
with no actions. -/
theorem claim_C9_amended (command : String) (settings : ExtensionSettings)
    (resp : JStr) (parseI : JStr → Except String IntentJson)
    (parseC : JStr → Except String CodeGenJson)
    (hE : extractJsonBlock resp = none) :
    (analyzeIntent command settings (.content resp) parseI).2 = [.modelCall]
    ∧ (analyzeIntent command settings (.content resp) parseI).1 = intentFallback command
    ∧ (generateCode settings (.content resp) parseC).2 = [.modelCall]
    ∧ (generateCode settings (.content resp) parseC).1.success = false
    ∧ (generateCode settings (.content resp) parseC).1.actions = [] := by
  by_cases hk : settings.apiKey.data.isEmpty <;> cases hp : settings.provider <;>
    simp [analyzeIntent, generateCode, callAI, callClaude, callOpenAI, hk, hp, hE]

/-- **C9 amended witness.** The amended behavior at a concrete malformed
response. -/
theorem claim_C9_amended_witness :
    (generateCode { DEFAULT_SETTINGS with apiKey := "k" }
        (.content "definitely not json".data)
        (fun _ => (.error "unused" : Except String CodeGenJson))).2 =
      [BrowserEvent.modelCall] :=
  (claim_C9_amended "cmd" { DEFAULT_SETTINGS with apiKey := "k" }
    "definitely not json".data (fun _ => .error "unused") (fun _ => .error "unused")
    (by decide)).2.2.1

/-- A concrete well-configured gateway call: Claude provider, non-empty API
key. -/
def configuredCallOpts : AICallOptions :=
  { provider := .claude
    apiKey := "k".data
    model := []
    systemPrompt := []
    userMessage := [] }

/-- **C3.** The claim asserts that every `callAI` invocation is admitted by
the shared rate limiter's `canProceed()` before the remote provider is
contacted, and that on exhausted capacity the provider is not invoked.  In
the source, `callAI` never consults `rateLimiter` (the limiter is exported
but unreferenced): even at a state where the global limiter is exhausted —
`canProceed` rejects and `getWaitTime` reports a positive delay — `callAI`
emits no limiter check and invokes the provider unconditionally. -/
theorem claim_C3_callAI_not_gated :
    (canProceed globalRateLimiterConfig 10 ⟨[0, 1, 2, 3, 4, 5, 6, 7, 8, 9]⟩).1 = false
    ∧ 0 < getWaitTime globalRateLimiterConfig 10 ⟨[0, 1, 2, 3, 4, 5, 6, 7, 8, 9]⟩
    ∧ (∀ (opts : AICallOptions) (reply : ProviderReply),
        GatewayEvent.limiterCheck ∉ (callAI opts reply).2)
    ∧ (callAI configuredCallOpts (.content "ok".data)).2 =
        [GatewayEvent.providerRequest .claude]
    ∧ (callAI configuredCallOpts (.content "ok".data)).1 = .ok "ok".data := by
  refine ⟨by decide, by decide, ?_, by decide, rfl⟩
  intro opts reply
  by_cases hk : opts.apiKey.isEmpty <;> cases hp : opts.provider <;>
    simp [callAI, hk, hp]

/-- **C8 counterexample.** The claim asserts that when no clickable element
matches "Sign In", the outcome is
`{success: false, error: "Could not find element with text \"Sign In\""}`.
On a page with no matching element the script itself reports
`No element found with text "Sign In"`, and that — not the claimed
fallback string — is the surfaced error. -/
theorem claim_C8_counterexample :
    (executeClickByText [("text", "Sign In")] ⟨[]⟩).1 =
      { success := false, error := some "No element found with text \"Sign In\"" }
    ∧ (executeClickByText [("text", "Sign In")] ⟨[]⟩).1.error ≠
        some "Could not find element with text \"Sign In\"" := by
  constructor
  · rfl
  · decide

/-- **C8 amended.** For the command `click "Sign In"`, `checkFastPath`
returns a match with action `clickByText` and params `{text: "Sign In"}`;
and when no clickable element's trimmed text content, aria-label or value
case-insensitively equals "Sign In", `executeFastPathAction`'s click-by-text
path returns `{success: false,
error: "No element found with text \"Sign In\""}` (the source's
"Could not find element with text …" string is only a fallback for a script
that returns no error text, which the click script never does). -/
theorem claim_C8_amended :
    checkFastPath "click \"Sign In\"" =
      { matched := true, action := some .clickByText, params := some [("text", "Sign In")] }
    ∧ ∀ page : FastPage, (∀ e ∈ page.clickables, clickMatches "Sign In" e = false) →
        (executeFastPathAction .clickByText [("text", "Sign In")] page).1 =
          { success := false, error := some "No element found with text \"Sign In\"" } := by
  refine ⟨by decide, ?_⟩
  intro page h
  have hfound : page.clickables.any (clickMatches "Sign In") = false := by
    rw [List.any_eq_false]
    intro e he
    simp [h e he]
  have hpg : ((pget [("text", "Sign In")] "text").getD "") = "Sign In" := rfl
  simp only [executeFastPathAction, executeClickByText, hpg, hfound]
  decide

/-- **C8 amended witness.** The amended outcome on a concrete page with one
non-matching clickable element. -/
theorem claim_C8_amended_witness :
    (executeFastPathAction .clickByText [("text", "Sign In")]
        ⟨[{ textContent := some "Log Out" }]⟩).1 =
      { success := false, error := some "No element found with text \"Sign In\"" } :=
  claim_C8_amended.2 ⟨[{ textContent := some "Log Out" }]⟩ (by decide)

/-- **C7.** For every model response processed by the Action Generator:
actions missing their kind are dropped and the rest kept (the result's
actions are exactly the kind-bearing parsed actions, rebuilt); the result
has `success = true` iff at least one valid action survived (globally:
success holds iff the returned action list is non-empty); and when no
structured block can be extracted, `generateCode` returns `success = false`
with a diagnostic explanation — it is a total function and never throws. -/
theorem claim_C7_codegen_filtering (settings : ExtensionSettings)
    (reply : ProviderReply) (parse : JStr → Except String CodeGenJson) :
    ((generateCode settings reply parse).1.success = true ↔
      (generateCode settings reply parse).1.actions ≠ [])
    ∧ (∀ resp b p, reply = .content resp → settings.apiKey.data.isEmpty = false →
        extractJsonBlock resp = some b → parse b = .ok p → p.success = true →
        (generateCode settings reply parse).1.actions =
          ((p.actions.getD []).filter hasKind).map normalizeAction
        ∧ (generateCode settings reply parse).1.success =
          !(((p.actions.getD []).filter hasKind).map normalizeAction).isEmpty)
    ∧ (∀ resp, reply = .content resp → settings.apiKey.data.isEmpty = false →
        extractJsonBlock resp = none →
        (generateCode settings reply parse).1 =
          { success := false, actions := []
            explanation := "Failed to parse code generation response"
            error := some "Invalid response format" }) := by
  refine ⟨?_, ?_, ?_⟩
  · by_cases hk : settings.apiKey.data.isEmpty <;> cases hp : settings.provider <;>
      cases reply <;>
      simp [generateCode, callAI, callClaude, callOpenAI, hk, hp] <;>
      rename_i resp <;>
      cases hE : extractJsonBlock resp <;> simp [hE] <;>
      rename_i b <;>
      cases hP : parse b <;> simp [hP] <;>
      rename_i p <;>
      by_cases hS : p.success <;>
      simp [hS, List.isEmpty_iff]
  · intro resp b p hr hk hE hP hS
    subst hr
    cases hp : settings.provider <;>
      simp [generateCode, callAI, callClaude, callOpenAI, hk, hp, hE, hP, hS]
  · intro resp hr hk hE
    subst hr
    cases hp : settings.provider <;>
      simp [generateCode, callAI, callClaude, callOpenAI, hk, hp, hE]

/-- A parsed codegen response with one kindless action (to be dropped) and
one valid click action (to survive). -/
def demoCodeGenJson : CodeGenJson :=
  { success := true
    actions := some [{}, { actionType := some "click", code := some "x" }] }

/-- **C7 witness.** The filtering equation at a concrete response. -/
theorem claim_C7_witness :
    (generateCode { DEFAULT_SETTINGS with apiKey := "k" } (.content "x{a}y".data)
        (fun _ => .ok demoCodeGenJson)).1.actions =
      ((demoCodeGenJson.actions.getD []).filter hasKind).map normalizeAction :=
  ((claim_C7_codegen_filtering { DEFAULT_SETTINGS with apiKey := "k" }
    (.content "x{a}y".data) (fun _ => .ok demoCodeGenJson)).2.1
    "x{a}y".data "{a}".data demoCodeGenJson rfl (by decide) (by decide) rfl rfl).1

/-- **C2.** For every command matching a fast-path rule, processing the
command never invokes the Model Gateway: `executeFastPathAction` emits no
model call on any of its action kinds, and the (spec-modelled) pipeline run
of a fast-path command performs zero model calls. -/
theorem claim_C2_fastpath_no_model_call (command : String)
    (h : (checkFastPath command).matched = true) :
    (∀ (a : FastPathAction) (ps : Params) (page : FastPage),
        BrowserEvent.modelCall ∉ (executeFastPathAction a ps page).2)
    ∧ ∀ (settings : ExtensionSettings) (env : PipelineEnv),
        (processPipelineModel command settings env).2.1 = 0 := by
  constructor
  · intro a ps page
    cases a <;>
      simp only [executeFastPathAction, fastExecuteScroll, fastExecuteGoBack,
        fastExecuteGoForward, fastExecuteReload, fastExecuteNavigate,
        executeClickByText] <;>
      try split
    all_goals simp
  · intro settings env
    rcases ha : (checkFastPath command).action with _ | a <;>
      rcases hps : (checkFastPath command).params with _ | ps <;>
      simp [processPipelineModel, h, ha, hps]

/-- A pipeline environment whose executor always fails retryably, with a
clear intent and a fixed safe single-action codegen result. -/
def demoFailEnv : PipelineEnv :=
  { intentResult := { clear := true }
    codegenResult := fun _ =>
      { success := true
        actions := [{ code := some "x", selector := none, actionType := "click"
                      description := "d", verification := ⟨.noVerify, ""⟩ }]
        explanation := "e" }
    execOutcome := fun _ => ⟨false, true⟩
    verifyOk := fun _ => true
    fastPage := ⟨[]⟩ }

/-- **C2 witness.** No model call on a concrete fast-path command. -/
theorem claim_C2_witness :
    BrowserEvent.modelCall ∉
      (executeFastPathAction .scroll [("direction", "down"), ("amount", "400")] ⟨[]⟩).2
    ∧ (processPipelineModel "scroll down" DEFAULT_SETTINGS demoFailEnv).2.1 = 0 :=
  ⟨(claim_C2_fastpath_no_model_call "scroll down" (by decide)).1 .scroll
      [("direction", "down"), ("amount", "400")] ⟨[]⟩,
   (claim_C2_fastpath_no_model_call "scroll down" (by decide)).2 DEFAULT_SETTINGS demoFailEnv⟩

/-- The retry loop under a permanently retry-failing executor runs all its
fuel as full cycles and ends in `error`. -/
theorem runRetryCycles_always_retry (env : PipelineEnv)
    (hcg : ∀ n, (env.codegenResult n).actions ≠ [])
    (hsafe : ∀ n, actionsSafe (env.codegenResult n).actions = true)
    (hfl : ∀ n, actionsFlagged (env.codegenResult n).actions = false)
    (hex : ∀ n, env.execOutcome n = ⟨false, true⟩) :
    ∀ fuel n, runRetryCycles env fuel n = (.error, fuel, fuel) := by
  intro fuel
  induction fuel with
  | zero => intro n; rfl
  | succ f ih =>
    intro n
    simp [runRetryCycles, List.isEmpty_iff, hcg n, hsafe n, hfl n, hex n, ih (n + 1)]

/-- **C5.** (Pipeline modelled from the spec.)  A command that misses the
fast path, has a clear intent and safe regenerated actions, but whose
executor always fails with `requiresRetry = true`, terminates in the `error`
state after exactly `maxRetries` regenerate-and-execute cycles — never more
and never infinitely (the run is a total function) — with `maxRetries` taken
from the configuration, whose default is 3. -/
theorem claim_C5_retry_bound (command : String) (settings : ExtensionSettings)
    (env : PipelineEnv)
    (hfp : (checkFastPath command).matched = false)
    (hclear : env.intentResult.clear = true)
    (hcg : ∀ n, (env.codegenResult n).actions ≠ [])
    (hsafe : ∀ n, actionsSafe (env.codegenResult n).actions = true)
    (hfl : ∀ n, actionsFlagged (env.codegenResult n).actions = false)
    (hex : ∀ n, env.execOutcome n = ⟨false, true⟩) :
    processPipelineModel command settings env =
      (.error, settings.maxRetries + 1, settings.maxRetries)
    ∧ DEFAULT_SETTINGS.maxRetries = 3 := by
  refine ⟨?_, rfl⟩
  simp [processPipelineModel, hfp, hclear,
    runRetryCycles_always_retry env hcg hsafe hfl hex settings.maxRetries 0]

/-- **C5 witness.** The bound at the default configuration: exactly 3 cycles
then `error`. -/
theorem claim_C5_witness :
    processPipelineModel "frobnicate the widget" DEFAULT_SETTINGS demoFailEnv =
      (.error, 4, 3)
    ∧ DEFAULT_SETTINGS.maxRetries = 3 := by
  have hc : (demoFailEnv.codegenResult 0).actions ≠ [] := by decide
  have hs : actionsSafe (demoFailEnv.codegenResult 0).actions = true := by decide
  have hf : actionsFlagged (demoFailEnv.codegenResult 0).actions = false := by decide
  exact claim_C5_retry_bound "frobnicate the widget" DEFAULT_SETTINGS demoFailEnv
    (by decide) rfl (fun _ => hc) (fun _ => hs) (fun _ => hf) (fun _ => rfl)

/-- If every rule before some table position misses and that position's rule
hits, the blocked scan stops there with that rule's fragment and reason —
whatever comes after it in the table. -/
theorem scanBlocked_append_first (code : JStr) (pre : List (List STok × String))
    (p : List STok) (reason : String) (suffix : List (List STok × String)) (f : JStr)
    (hpre : ∀ q ∈ pre, firstTokMatch q.1 code = none)
    (hp : firstTokMatch p code = some f) :
    scanBlocked (pre ++ (p, reason) :: suffix) code = some (fragOf f, reason) := by
  induction pre with
  | nil => simp [scanBlocked, hp]
  | cons q qs ih =>
    obtain ⟨qt, qr⟩ := q
    have hq := hpre (qt, qr) (List.mem_cons_self _ _)
    simpa [scanBlocked, hq] using ih fun r hr => hpre r (List.mem_cons_of_mem _ hr)

/-- The `fetch\s*\(` pattern matches at the head of any input beginning with
the literal characters `fetch(`. -/
theorem matchToks_fetch (post : JStr) :
    matchToks (litToks "fetch" ++ [.wsStar, .lit '(']) ("fetch(".data ++ post) =
      some "fetch(".data := rfl

/-- A token pattern that matches at the head of `rest` is found by the
scanning matcher anywhere `rest` occurs as a suffix. -/
theorem firstTokMatch_isSome_of_append (ts : List STok) (pre rest : JStr)
    (h : (matchToks ts rest).isSome) : (firstTokMatch ts (pre ++ rest)).isSome := by
  induction pre with
  | nil =>
    cases rest with
    | nil => simpa [firstTokMatch] using h
    | cons c xs =>
      obtain ⟨v, hv⟩ := Option.isSome_iff_exists.mp h
      simp [firstTokMatch, hv]
  | cons c cs ih =>
    rw [List.cons_append]
    cases hm : matchToks ts (c :: (cs ++ rest)) with
    | some v => simp [firstTokMatch, hm]
    | none => simpa [firstTokMatch, hm] using ih

/-- **C1.** For every action payload and action kind, if a blocked pattern
matches the payload then `checkSafety` returns `safe = false` carrying the
matched fragment and the first matching rule's reason, independently of
every later blocking rule and of the whole advisory table (none of which is
evaluated); in particular a payload containing the substring `fetch(`
anywhere yields `safe = false` with reason "Network requests are not
allowed". -/
theorem claim_C1_blocked_first_terminal :
    (∀ (code : JStr) (pre : List (List STok × String)) (p : List STok)
        (reason : String) (suffix : List (List STok × String))
        (flaggedTbl : List ((JStr → Bool) × String)) (f : JStr),
        (∀ q ∈ pre, firstTokMatch q.1 code = none) →
        firstTokMatch p code = some f →
        checkSafetyGen (pre ++ (p, reason) :: suffix) flaggedTbl code =
          { safe := false, blocked := some (fragOf f), blockedReason := some reason })
    ∧ (∀ (pre post : JStr) (k : ActionType),
        (checkSafety (pre ++ "fetch(".data ++ post) k).safe = false
        ∧ (checkSafety (pre ++ "fetch(".data ++ post) k).blockedReason =
            some "Network requests are not allowed") := by
  constructor
  · intro code pre p reason suffix fl f hpre hp
    simp [checkSafetyGen, scanBlocked_append_first code pre p reason suffix f hpre hp]
  · intro pre post k
    have hm : (matchToks (litToks "fetch" ++ [.wsStar, .lit '('])
        ("fetch(".data ++ post)).isSome := by
      rw [matchToks_fetch]; rfl
    have hf := firstTokMatch_isSome_of_append _ pre _ hm
    obtain ⟨f0, hf0⟩ := Option.isSome_iff_exists.mp hf
    rw [List.append_assoc]
    have hscan : scanBlocked BLOCKED_PATTERNS (pre ++ ("fetch(".data ++ post)) =
        some (fragOf f0, "Network requests are not allowed") := by
      simp only [BLOCKED_PATTERNS, scanBlocked, hf0]
    constructor <;> (unfold checkSafety checkSafetyGen; rw [hscan])

/-- **C1 witness.** The first-match-terminal equation at a concrete table
and payload, and the `fetch(` scenario at a concrete payload. -/
theorem claim_C1_witness :
    checkSafetyGen [(litToks "x", "no x")] FLAGGED_PATTERNS "ax".data =
      { safe := false, blocked := some "x", blockedReason := some "no x" }
    ∧ (checkSafety ("a ".data ++ "fetch(".data ++ "url)".data) .click).safe = false :=
  ⟨claim_C1_blocked_first_terminal.1 "ax".data [] (litToks "x") "no x" []
      FLAGGED_PATTERNS "x".data (by simp) (by decide),
   (claim_C1_blocked_first_terminal.2 "a ".data "url)".data .click).1⟩

/-! ### Rate-limiter lemmas (for C4) -/

/-- A `min`-fold lands on a list member. -/
theorem foldlMin_mem (t : List Int) : ∀ a : Int, t.foldl min a ∈ a :: t := by
  induction t with
  | nil => intro a; simp
  | cons x xs ih =>
    intro a
    rw [List.foldl_cons]
    rcases List.mem_cons.mp (ih (min a x)) with h | h
    · rcases min_choice a x with hm | hm
      · simp [h.trans hm]
      · simp [h.trans hm]
    · simp [h]

/-- A `min`-fold is a lower bound of the seed and all members. -/
theorem foldlMin_le (t : List Int) :
    ∀ a : Int, t.foldl min a ≤ a ∧ ∀ u ∈ t, t.foldl min a ≤ u := by
  induction t with
  | nil => simp
  | cons x xs ih =>
    intro a
    rw [List.foldl_cons]
    obtain ⟨h1, h2⟩ := ih (min a x)
    refine ⟨h1.trans (min_le_left a x), ?_⟩
    intro u hu
    rcases List.mem_cons.mp hu with rfl | hu
    · exact h1.trans (min_le_right a u)
    · exact h2 u hu

/-- `Math.min(...requests)` is the least recorded timestamp. -/
theorem jsMinList_spec (l : List Int) (h : l ≠ []) :
    jsMinList l ∈ l ∧ ∀ u ∈ l, jsMinList l ≤ u := by
  match l with
  | x :: t =>
    refine ⟨foldlMin_mem t x, ?_⟩
    intro u hu
    rcases List.mem_cons.mp hu with rfl | hu
    · exact (foldlMin_le t u).1
    · exact (foldlMin_le t x).2 u hu

/-- The fresh-admitted list counts exactly the admitted-and-fresh trace
entries. -/
theorem length_admittedFresh (cfg : RateLimiterConfig) (H : List (Int × Bool))
    (now : Int) :
    (admittedFresh cfg H now).length =
      H.countP (fun p => p.2 && decide (now - p.1 < cfg.windowMs)) := by
  induction H with
  | nil => rfl
  | cons p t ih =>
    by_cases hp : p.2 = true <;> by_cases hf : now - p.1 < cfg.windowMs
    all_goals simp [admittedFresh, List.filter_cons, List.countP_cons, hp, hf] at *
    all_goals omega

/-- `countP` is monotone in the predicate over the list's members. -/
theorem countP_le_countP {α : Type} (l : List α) (p q : α → Bool)
    (h : ∀ a ∈ l, p a = true → q a = true) : l.countP p ≤ l.countP q := by
  induction l with
  | nil => simp
  | cons x xs ih =>
    have hx := h x (List.mem_cons_self _ _)
    have ihx := ih fun a ha => h a (List.mem_cons_of_mem _ ha)
    by_cases hpx : p x = true
    · simp [List.countP_cons, hpx, hx hpx]
      omega
    · simp only [List.countP_cons, Bool.not_eq_true] at hpx ⊢
      rw [hpx]
      by_cases hqx : q x = true <;> simp [hqx] <;> omega

/-- Re-evicting an already-evicted trace at a later time is the same as
evicting at the later time directly. -/
theorem admittedFresh_filter (cfg : RateLimiterConfig) (H : List (Int × Bool))
    (prev now : Int) (hH : ∀ p ∈ H, p.1 ≤ prev) (hpn : prev ≤ now) :
    (admittedFresh cfg H prev).filter (fun t => now - t < cfg.windowMs) =
      admittedFresh cfg H now := by
  unfold admittedFresh
  rw [List.filter_filter]
  apply List.filter_congr
  intro t ht
  obtain ⟨p, hp, rfl⟩ := List.mem_map.mp ht
  have hpH : p ∈ H := List.mem_of_mem_filter hp
  have := hH p hpH
  by_cases h : now - p.1 < cfg.windowMs
  all_goals simp [h]
  all_goals omega

/-- The fresh-admitted list over a split trace splits. -/
theorem admittedFresh_append (cfg : RateLimiterConfig) (A B : List (Int × Bool))
    (now : Int) :
    admittedFresh cfg (A ++ B) now = admittedFresh cfg A now ++ admittedFresh cfg B now := by
  simp [admittedFresh, List.filter_append, List.map_append]

/-- The one-entry fresh-admitted list at its own timestamp. -/
theorem admittedFresh_single (cfg : RateLimiterConfig) (hW : 0 < cfg.windowMs)
    (now : Int) (ok : Bool) :
    admittedFresh cfg [(now, ok)] now = if ok = true then [now] else [] := by
  cases ok <;> simp [admittedFresh, hW]

/-- `winCount` over a split trace splits. -/
theorem winCount_append (cfg : RateLimiterConfig) (x : Int) (A B : List (Int × Bool)) :
    winCount cfg x (A ++ B) = winCount cfg x A + winCount cfg x B := by
  simp [winCount, List.countP_append]

/-- The run invariant for a monotone call sequence: starting from a state
that is exactly the fresh-admitted list of an already-processed trace `H`,
(a) every window of length `windowMs` contains at most `maxRequests`
admitted timestamps of the full trace, and (b) each call is admitted exactly
when the still-fresh admitted calls before it are under the cap. -/
theorem limiterRun_invariant (cfg : RateLimiterConfig) (hW : 0 < cfg.windowMs) :
    ∀ (calls : List Int) (H : List (Int × Bool)) (prev : Int) (st : RateLimiterState),
      calls.Pairwise (· ≤ ·) →
      (∀ p ∈ H, p.1 ≤ prev) →
      (∀ c ∈ calls, prev ≤ c) →
      st.requests = admittedFresh cfg H prev →
      (∀ x, winCount cfg x H ≤ cfg.maxRequests) →
      (∀ x, winCount cfg x (H ++ (limiterRun cfg st calls).1) ≤ cfg.maxRequests)
      ∧ (∀ (P₁ : List (Int × Bool)) (t : Int) (ok : Bool) (P₂ : List (Int × Bool)),
          (limiterRun cfg st calls).1 = P₁ ++ (t, ok) :: P₂ →
          (ok = true ↔ (admittedFresh cfg (H ++ P₁) t).length < cfg.maxRequests)) := by
  intro calls
  induction calls with
  | nil =>
    intro H prev st _ _ _ _ hbound
    refine ⟨fun x => by simpa [limiterRun] using hbound x, ?_⟩
    intro P₁ t ok P₂ hdec
    simp [limiterRun] at hdec
  | cons now rest ih =>
    intro H prev st hsorted hH hprev hst hbound
    have hprevnow : prev ≤ now := hprev now (List.mem_cons_self _ _)
    obtain ⟨hrestle, hsorted2⟩ := List.pairwise_cons.mp hsorted
    have hkept : st.requests.filter (fun u => now - u < cfg.windowMs) =
        admittedFresh cfg H now := by
      rw [hst]
      exact admittedFresh_filter cfg H prev now hH hprevnow
    by_cases hc : cfg.maxRequests ≤ (admittedFresh cfg H now).length
    -- rejected call
    · have hr : canProceed cfg now st = (false, ⟨admittedFresh cfg H now⟩) := by
        simp [canProceed, hkept, hc]
      have hH2 : ∀ p ∈ H ++ [(now, false)], p.1 ≤ now := by
        intro p hp
        rcases List.mem_append.mp hp with hp | hp
        · exact (hH p hp).trans hprevnow
        · simp at hp
          simp [hp]
      have hst2 : (RateLimiterState.mk (admittedFresh cfg H now)).requests =
          admittedFresh cfg (H ++ [(now, false)]) now := by
        rw [admittedFresh_append, admittedFresh_single cfg hW]
        simp
      have hbound2 : ∀ x, winCount cfg x (H ++ [(now, false)]) ≤ cfg.maxRequests := by
        intro x
        rw [winCount_append]
        have : winCount cfg x [(now, false)] = 0 := by simp [winCount]
        rw [this]
        simpa using hbound x
      obtain ⟨ha, hb⟩ := ih (H ++ [(now, false)]) now ⟨admittedFresh cfg H now⟩
        hsorted2 hH2 hrestle hst2 hbound2
      have hrun : (limiterRun cfg st (now :: rest)).1 =
          (now, false) :: (limiterRun cfg ⟨admittedFresh cfg H now⟩ rest).1 := by
        simp [limiterRun, hr]
      refine ⟨?_, ?_⟩
      · intro x
        rw [hrun, show H ++ ((now, false) :: (limiterRun cfg
            ⟨admittedFresh cfg H now⟩ rest).1) = (H ++ [(now, false)]) ++
            (limiterRun cfg ⟨admittedFresh cfg H now⟩ rest).1 by simp]
        exact ha x
      · intro P₁ t ok P₂ hdec
        rw [hrun] at hdec
        cases P₁ with
        | nil =>
          simp at hdec
          obtain ⟨⟨h1, h2⟩, _⟩ := hdec
          subst h1
          subst h2
          simp only [List.append_nil]
          constructor
          · intro hcon
            exact absurd hcon (by simp)
          · intro hlt
            omega
        | cons q Q =>
          simp at hdec
          obtain ⟨h1, h2⟩ := hdec
          subst h1
          have := hb Q t ok P₂ (by simpa using h2)
          rwa [show (H ++ [(now, false)]) ++ Q = H ++ ((now, false) :: Q) by simp]
            at this
    -- admitted call
    · have hr : canProceed cfg now st =
          (true, ⟨admittedFresh cfg H now ++ [now]⟩) := by
        simp [canProceed, hkept, hc]
      have hH2 : ∀ p ∈ H ++ [(now, true)], p.1 ≤ now := by
        intro p hp
        rcases List.mem_append.mp hp with hp | hp
        · exact (hH p hp).trans hprevnow
        · simp at hp
          simp [hp]
      have hst2 : (RateLimiterState.mk (admittedFresh cfg H now ++ [now])).requests =
          admittedFresh cfg (H ++ [(now, true)]) now := by
        rw [admittedFresh_append, admittedFresh_single cfg hW]
        simp
      have hbound2 : ∀ x, winCount cfg x (H ++ [(now, true)]) ≤ cfg.maxRequests := by
        intro x
        rw [winCount_append]
        by_cases hin : x < now ∧ now ≤ x + cfg.windowMs
        · have hwin1 : winCount cfg x [(now, true)] = 1 := by
            simp [winCount, List.countP_cons, hin.1, hin.2]
          have hmono : winCount cfg x H ≤ (admittedFresh cfg H now).length := by
            rw [length_admittedFresh]
            apply countP_le_countP
            intro p _ hp
            simp only [Bool.and_eq_true, decide_eq_true_eq] at hp ⊢
            exact ⟨hp.1.1, by omega⟩
          omega
        · have hwin0 : winCount cfg x [(now, true)] = 0 := by
            simp only [winCount, List.countP_cons, List.countP_nil]
            have : ¬(x < now ∧ now ≤ x + cfg.windowMs) := hin
            by_cases h1 : x < now <;> by_cases h2 : now ≤ x + cfg.windowMs
            all_goals simp [h1, h2]
            all_goals omega
          rw [hwin0]
          simpa using hbound x
      obtain ⟨ha, hb⟩ := ih (H ++ [(now, true)]) now
        ⟨admittedFresh cfg H now ++ [now]⟩ hsorted2 hH2 hrestle hst2 hbound2
      have hrun : (limiterRun cfg st (now :: rest)).1 =
          (now, true) :: (limiterRun cfg ⟨admittedFresh cfg H now ++ [now]⟩ rest).1 := by
        simp [limiterRun, hr]
      refine ⟨?_, ?_⟩
      · intro x
        rw [hrun, show H ++ ((now, true) :: (limiterRun cfg
            ⟨admittedFresh cfg H now ++ [now]⟩ rest).1) = (H ++ [(now, true)]) ++
            (limiterRun cfg ⟨admittedFresh cfg H now ++ [now]⟩ rest).1 by simp]
        exact ha x
      · intro P₁ t ok P₂ hdec
        rw [hrun] at hdec
        cases P₁ with
        | nil =>
          simp at hdec
          obtain ⟨⟨h1, h2⟩, _⟩ := hdec
          subst h1
          subst h2
          simp only [List.append_nil]
          constructor
          · intro _
            omega
          · intro _
            trivial
        | cons q Q =>
          simp at hdec
          obtain ⟨h1, h2⟩ := hdec
          subst h1
          have := hb Q t ok P₂ (by simpa using h2)
          rwa [show (H ++ [(now, true)]) ++ Q = H ++ ((now, true) :: Q) by simp]
            at this

/-- **C4.** For every limiter configured with maximum M and positive window
W, and every monotone sequence of `canProceed()` calls from a fresh limiter:
(a) at most M calls whose timestamps lie within any single window
`(x, x + W]` are admitted; (b) each call is admitted exactly when the
still-fresh admitted calls before it are under the cap — so all further
calls within a saturated window are rejected; (c) once every recorded
timestamp is older than W, capacity is fully restored and the next call is
admitted; (d) `getWaitTime()` returns 0 when under capacity, and otherwise
the delay until the oldest recorded timestamp (the least, as `Math.min`
computes) exits the window. -/
theorem claim_C4_rate_limiter (cfg : RateLimiterConfig)
    (hM : 0 < cfg.maxRequests) (hW : 0 < cfg.windowMs)
    (calls : List Int) (hs : calls.Pairwise (· ≤ ·)) :
    (∀ x : Int, winCount cfg x (runPairs cfg calls) ≤ cfg.maxRequests)
    ∧ (∀ (P₁ : List (Int × Bool)) (t : Int) (ok : Bool) (P₂ : List (Int × Bool)),
        runPairs cfg calls = P₁ ++ (t, ok) :: P₂ →
        (ok = true ↔ (admittedFresh cfg P₁ t).length < cfg.maxRequests))
    ∧ (∀ (st : RateLimiterState) (now : Int),
        (∀ u ∈ st.requests, cfg.windowMs ≤ now - u) →
        (canProceed cfg now st).1 = true)
    ∧ (∀ (st : RateLimiterState) (now : Int),
        (st.requests.length < cfg.maxRequests → getWaitTime cfg now st = 0)
        ∧ (cfg.maxRequests ≤ st.requests.length →
            jsMinList st.requests ∈ st.requests
            ∧ (∀ u ∈ st.requests, jsMinList st.requests ≤ u)
            ∧ getWaitTime cfg now st =
                jsMinList st.requests + cfg.windowMs - now)) := by
  have hab : (∀ x : Int, winCount cfg x (runPairs cfg calls) ≤ cfg.maxRequests)
      ∧ (∀ (P₁ : List (Int × Bool)) (t : Int) (ok : Bool) (P₂ : List (Int × Bool)),
          runPairs cfg calls = P₁ ++ (t, ok) :: P₂ →
          (ok = true ↔ (admittedFresh cfg P₁ t).length < cfg.maxRequests)) := by
    cases calls with
    | nil =>
      constructor
      · intro x
        simp [runPairs, limiterRun, winCount]
      · intro P₁ t ok P₂ hdec
        simp [runPairs, limiterRun] at hdec
    | cons c rest =>
      have hcle : ∀ u ∈ c :: rest, c ≤ u := by
        intro u hu
        rcases List.mem_cons.mp hu with rfl | hu
        · exact le_refl u
        · exact (List.pairwise_cons.mp hs).1 u hu
      obtain ⟨h1, h2⟩ := limiterRun_invariant cfg hW (c :: rest) [] c ⟨[]⟩ hs
        (by simp) hcle (by simp [admittedFresh]) (by intro x; simp [winCount])
      constructor
      · intro x
        simpa [runPairs] using h1 x
      · intro P₁ t ok P₂ hdec
        have := h2 P₁ t ok P₂ (by simpa [runPairs] using hdec)
        simpa using this
  refine ⟨hab.1, hab.2, ?_, ?_⟩
  · intro st now h
    have hnil : st.requests.filter (fun u => now - u < cfg.windowMs) = [] := by
      rw [List.filter_eq_nil_iff]
      intro u hu
      have := h u hu
      simp
      omega
    have hz : cfg.maxRequests ≠ 0 := by omega
    simp [canProceed, hnil, hz]
  · intro st now
    constructor
    · intro hlt
      simp [getWaitTime, hlt]
    · intro hge
      have hne : st.requests ≠ [] := by
        intro hnil
        rw [hnil] at hge
        simp at hge
        omega
      obtain ⟨hmem, hle⟩ := jsMinList_spec st.requests hne
      have hnlt : ¬ st.requests.length < cfg.maxRequests := by omega
      exact ⟨hmem, hle, by simp [getWaitTime, hnlt]⟩

/-- **C4 witness.** The window bound at a concrete configuration (maximum 2,
window 10) and call sequence. -/
theorem claim_C4_witness :
    winCount ⟨2, 10⟩ (-1) (runPairs ⟨2, 10⟩ [0, 1, 2, 11]) ≤ 2 :=
  (claim_C4_rate_limiter ⟨2, 10⟩ (by decide) (by decide) [0, 1, 2, 11]
    (by decide)).1 (-1)

end BrowserAgent
